import Mathlib

/-!
Verification development for the 10x_prompt repository (src/app.py).

The Python program is shallowly embedded: stateful routes become explicit
state-passing functions over an environment record describing the outcomes
of external provider calls, and the fallible provider calls are modelled
with `Except`.  Machine-level concerns (timestamps) are modelled as `Nat`
parameters.
-/

namespace TenXPrompt

/-! ## Retry/Backoff executor: src/app.py, `retry_with_backoff` (lines 139-149)

```
def retry_with_backoff(func, max_retries=3, initial_delay=1):
    for attempt in range(max_retries):
        try:
            return func()
        except Exception as e:
            if attempt == max_retries - 1:  # Last attempt
                raise  # Re-raise the last exception
            delay = initial_delay * (2 ** attempt)  # Exponential backoff
            logger.warning(...)
            time.sleep(delay)
```

The operation is modelled as `op : Nat -> Except E A`, where `op i` is the
outcome of the i-th invocation (0-based).  A run produces an outcome plus a
trace of events: each invocation (`attempt i`) and each blocking wait
(`sleep d`, the argument passed to `time.sleep`), in execution order. -/

inductive REvent where
  | attempt (i : Nat)
  | sleep (d : Nat)
deriving DecidableEq, Repr

/-- Outcome of a `retry_with_backoff` run: a value returned normally, an
exception re-raised from the last attempt, or the implicit Python `None`
when the `range` loop body never executes. -/
inductive ROutcome (E A : Type) where
  | value (a : A)
  | raised (e : E)
  | noneResult
deriving DecidableEq, Repr

/-- The loop of `retry_with_backoff`, structurally recursing on the number
`remaining` of loop iterations still to run; `i` is the current 0-based
attempt index (so `remaining = 1` exactly on the last attempt,
`attempt == max_retries - 1` in the source). -/
def retryFrom (op : Nat → Except E A) (initial_delay : Nat) :
    (remaining : Nat) → (i : Nat) → ROutcome E A × List REvent
  | 0, _ => (.noneResult, [])
  | 1, i =>
    match op i with
    | .ok a => (.value a, [.attempt i])
    | .error e => (.raised e, [.attempt i])
  | r + 2, i =>
    match op i with
    | .ok a => (.value a, [.attempt i])
    | .error _ =>
      let rest := retryFrom op initial_delay (r + 1) (i + 1)
      (rest.1, .attempt i :: .sleep (initial_delay * 2 ^ i) :: rest.2)

/-- src/app.py `retry_with_backoff`.  `max_retries` is an `Int` so that the
behaviour of Python `range` on non-positive arguments (empty iteration) is
captured: `Int.toNat` sends every non-positive value to `0`. -/
def retry_with_backoff (op : Nat → Except E A) (max_retries : Int := 3)
    (initial_delay : Nat := 1) : ROutcome E A × List REvent :=
  retryFrom op initial_delay max_retries.toNat 0

/-- Number of invocations of the operation during a run. -/
def numAttempts (tr : List REvent) : Nat :=
  tr.countP fun ev => match ev with | .attempt _ => true | _ => false

/-! ## Health tracker: src/app.py, class `APIStatus` (lines 126-137)

One instance per provider (`groq_status`, `deepseek_status`), process-wide
mutable state.  Timestamps (`time.time()`) are modelled by a `Nat` passed
in as `now`. -/

structure APIStatus where
  is_healthy : Bool
  last_check_time : Option Nat
  last_error : Option String
  consecutive_failures : Nat
deriving DecidableEq, Repr

/-- The success-path status update, appearing verbatim at src/app.py lines
271-273 (inside the health check) and lines 772-775 (inside
`try_api_call`):

```
status.is_healthy = True
status.last_check_time = time.time()
status.consecutive_failures = 0
```

Note that neither site assigns `status.last_error`. -/
def recordSuccess (s : APIStatus) (now : Nat) : APIStatus :=
  { s with is_healthy := true, last_check_time := some now,
           consecutive_failures := 0 }

/-- The failure-path status update, appearing at src/app.py lines 287-290,
296-299 and 799-803:

```
status.is_healthy = False
status.last_check_time = time.time()
status.last_error = str(e)
status.consecutive_failures += 1
``` -/
def recordFailure (s : APIStatus) (e : String) (now : Nat) : APIStatus :=
  { s with is_healthy := false, last_check_time := some now,
           last_error := some e, consecutive_failures := s.consecutive_failures + 1 }

/-- An outbound request to a provider: a health-check test completion
(`healthProbe`) or an enhancement completion from `try_api_call`
(`apiCall`).  The `Bool` is true for Groq, false for DeepSeek. -/
inductive PEvent where
  | healthProbe (groq : Bool)
  | apiCall (groq : Bool)
deriving DecidableEq, Repr

/-- The pair of global status trackers (src/app.py lines 136-137). -/
structure HState where
  groq : APIStatus
  deepseek : APIStatus
deriving DecidableEq, Repr

/-- The result dictionary built by `perform_health_checks`. -/
structure HCResults where
  groqHealthy : Bool
  groqError : Option String
  deepseekHealthy : Bool
  deepseekError : Option String
deriving DecidableEq, Repr

/-- src/app.py `check_api_health` (lines 181-303).  The inner closure sends
one test completion request, records success or failure on the tracker, and
returns `(healthy, error)`; it catches every exception internally, so the
surrounding `retry_with_backoff` always returns after its first invocation
(the closure never raises).  The outcome of the probe request is the
`probe` argument. -/
def check_api_health (probe : Except String Unit) (s : APIStatus)
    (now : Nat) : (Bool × Option String) × APIStatus :=
  match probe with
  | .ok _ => ((true, none), recordSuccess s now)
  | .error e => ((false, some e), recordFailure s e now)

/-- src/app.py `perform_health_checks` (lines 305-328): probes each
provider whose client is initialized (mutating its tracker), and reports
`healthy = False` with an explanatory error, without any probe, for a
provider whose client is `None`. -/
def perform_health_checks (gc dc : Bool) (gp dp : Except String Unit)
    (st : HState) (now : Nat) : HCResults × HState × List PEvent :=
  let gpart :=
    if gc then
      let r := check_api_health gp st.groq now
      ((r.1.1, r.1.2), r.2, [PEvent.healthProbe true])
    else ((false, some "Groq client not initialized"), st.groq, [])
  let dpart :=
    if dc then
      let r := check_api_health dp st.deepseek now
      ((r.1.1, r.1.2), r.2, [PEvent.healthProbe false])
    else ((false, some "DeepSeek client not initialized"), st.deepseek, [])
  (⟨gpart.1.1, gpart.1.2, dpart.1.1, dpart.1.2⟩,
   ⟨gpart.2.1, dpart.2.1⟩, gpart.2.2 ++ dpart.2.2)

/-- src/app.py `health_check` route (lines 330-358), projected to its
effect on the global status trackers: the endpoint runs
`perform_health_checks()` and then assembles a JSON snapshot from the
trackers.  `gc`/`dc` say whether each client is initialized and `gp`/`dp`
give the probe outcomes. -/
def health_check (gc dc : Bool) (gp dp : Except String Unit)
    (st : HState) (now : Nat) : HState :=
  (perform_health_checks gc dc gp dp st now).2.1

/-! ## Enhance endpoint: src/app.py, `enhance_prompt` (lines 660-840)

The route is modelled as a function of an environment describing the
request and the outcomes of all potential external interactions:
`dataPresent` is the truthiness of `request.json`, `prompt`/`ptype` the
request fields, `groqClient`/`deepseekClient` whether each global client is
initialized, `groqProbe`/`deepseekProbe` the outcomes of the health-check
test requests, `reinitGroq`/`reinitProbe` the outcome of the one Groq
client reinitialization attempted when both providers are down (lines
686-707), and `groqCall`/`deepseekCall` the outcomes of the `try_api_call`
completion requests.  The prompt-type selection (lines 709-719) only
chooses the system message sent upstream and has no observable effect
here. -/

deriving instance DecidableEq for Except

structure EnhanceEnv where
  dataPresent : Bool
  prompt : String
  ptype : String
  groqClient : Bool
  deepseekClient : Bool
  groqProbe : Except String Unit
  deepseekProbe : Except String Unit
  reinitGroq : Bool
  reinitProbe : Except String Unit
  groqCall : Except String String
  deepseekCall : Except String String
deriving DecidableEq, Repr

/-- HTTP status, JSON body (as an association list of fields), final global
tracker state, and the ordered trace of outbound provider requests. -/
structure EnhanceResult where
  status : Nat
  body : List (String × String)
  state : HState
  trace : List PEvent
deriving DecidableEq, Repr

def isOkB : Except ε α → Bool
  | .ok _ => true
  | .error _ => false

def allDownBody : List (String × String) :=
  [("error", "All APIs are currently unavailable. Please try again later.")]

/-- The try-Groq-then-DeepSeek chain, src/app.py lines 806-836.  `gOK` and
`dOK` are the guard values `groq_client is not None and
api_health["groq"]["healthy"]` (resp. DeepSeek) at this point. -/
def attemptStage (env : EnhanceEnv) (gOK dOK : Bool) (st : HState)
    (tr : List PEvent) (now : Nat) : EnhanceResult :=
  let g : Option String × Option String × HState × List PEvent :=
    if gOK then
      match env.groqCall with
      | .ok s =>
        (some s, none, ⟨recordSuccess st.groq now, st.deepseek⟩,
          tr ++ [PEvent.apiCall true])
      | .error e =>
        (none, some e, ⟨recordFailure st.groq e now, st.deepseek⟩,
          tr ++ [PEvent.apiCall true])
    else (none, none, st, tr)
  match g.1 with
  | some s => ⟨200, [("enhanced_prompt", s)], g.2.2.1, g.2.2.2⟩
  | none =>
    if dOK then
      match env.deepseekCall with
      | .ok s =>
        ⟨200, [("enhanced_prompt", s)],
          ⟨g.2.2.1.groq, recordSuccess g.2.2.1.deepseek now⟩,
          g.2.2.2 ++ [PEvent.apiCall false]⟩
      | .error e =>
        let msg := match g.2.1 with
          | some m => m ++ " | DeepSeek error: " ++ e
          | none => e
        ⟨503, [("error", "API request failed: " ++ msg)],
          ⟨g.2.2.1.groq, recordFailure g.2.2.1.deepseek e now⟩,
          g.2.2.2 ++ [PEvent.apiCall false]⟩
    else
      ⟨503, [("error", "API request failed: " ++ (g.2.1.getD "Unknown error"))],
        g.2.2.1, g.2.2.2⟩

/-- The part of `enhance_prompt` after input validation: health checks
(lines 679-684), the both-providers-down reinitialization branch with its
early 503 (lines 686-707), then the attempt chain. -/
def providerStage (env : EnhanceEnv) (st : HState) (now : Nat) : EnhanceResult :=
  let phc := perform_health_checks env.groqClient env.deepseekClient
    env.groqProbe env.deepseekProbe st now
  let ah := phc.1
  let st1 := phc.2.1
  let tr1 := phc.2.2
  if !ah.groqHealthy && !ah.deepseekHealthy then
    if env.reinitGroq then
      let chk := check_api_health env.reinitProbe st1.groq now
      let st2 : HState := ⟨chk.2, st1.deepseek⟩
      let tr2 := tr1 ++ [PEvent.healthProbe true]
      if chk.1.1 then
        attemptStage env true (env.deepseekClient && ah.deepseekHealthy) st2 tr2 now
      else ⟨503, allDownBody, st2, tr2⟩
    else ⟨503, allDownBody, st1, tr1⟩
  else
    attemptStage env (env.groqClient && ah.groqHealthy)
      (env.deepseekClient && ah.deepseekHealthy) st1 tr1 now

/-- src/app.py `enhance_prompt` (lines 660-840).  The outer
`except Exception` 500 handler is only reachable through failures of the
web framework itself (e.g. `jsonify`), which the model has no analogue
for. -/
def enhance_prompt (env : EnhanceEnv) (st : HState) (now : Nat) : EnhanceResult :=
  if env.dataPresent = false then
    ⟨400, [("error", "No data provided")], st, []⟩
  else if env.prompt = "" then
    ⟨400, [("error", "No prompt provided")], st, []⟩
  else providerStage env st now

/-! Derived guard predicates, characterizing which providers the attempt
chain reaches as a function of the environment alone. -/

def groqHealthy0 (env : EnhanceEnv) : Bool :=
  env.groqClient && isOkB env.groqProbe

def dsHealthy0 (env : EnhanceEnv) : Bool :=
  env.deepseekClient && isOkB env.deepseekProbe

def bothDown0 (env : EnhanceEnv) : Bool :=
  !groqHealthy0 env && !dsHealthy0 env

def reinitWorks (env : EnhanceEnv) : Bool :=
  env.reinitGroq && isOkB env.reinitProbe

/-- The Groq completion call is attempted iff Groq is healthy (or was
revived by the reinitialization when both providers were down). -/
def groqAttemptCond (env : EnhanceEnv) : Bool :=
  if bothDown0 env then reinitWorks env else groqHealthy0 env

/-- The DeepSeek completion call is attempted iff the Groq attempt did not
produce a result and DeepSeek is healthy. -/
def dsAttemptCond (env : EnhanceEnv) : Bool :=
  !(groqAttemptCond env && isOkB env.groqCall) && dsHealthy0 env

/-- Some attempted provider call returns a completion. -/
def enhanceSucceeds (env : EnhanceEnv) : Bool :=
  (groqAttemptCond env && isOkB env.groqCall)
    || (dsAttemptCond env && isOkB env.deepseekCall)

/-- The outbound enhancement completion requests of a trace (health probes
filtered out). -/
def apiCalls (tr : List PEvent) : List PEvent :=
  tr.filter fun ev => match ev with | .apiCall _ => true | _ => false

/-! ## Response sanitizer

Modelled from the spec: no sanitizer exists in src/ (the spec, section
4.5, documents the response post-processing of other revisions of app.py
that are not in the source tree).  The pipeline below follows the spec's
words step by step, over `List Char`: (1) remove every
complete `<think>...</think>` span and an unterminated trailing `<think>`
through end of string; (2) remove residual standalone tags by left-to-right
replacement; (3) collapse runs of 3+ newlines to exactly 2 and trim
surrounding whitespace; (4) strip a known lead-in phrase (case-insensitive)
when the text starts with it; (5) otherwise strip a generic lead-in ending
in the first colon when it contains one of the keywords; (6) strip
matching wrapping quotes (triple forms first); (7) strip a wrapping code
fence.  Step 8 (image-category JSON repair) is a category-specific wrapper
around the text pipeline, not one of the text rules, and is not part of
the chain modelled here.  Recursions that consume more than one character
per step take an explicit fuel bounded by the input length, so every
definition evaluates by kernel reduction. -/

/-- First occurrence split: `some (the text before the first occurrence of
pat, the text after it)`, or `none` when `pat` does not occur. -/
def splitFirst (pat : List Char) : List Char → Option (List Char × List Char)
  | [] => none
  | c :: cs =>
    if pat.isPrefixOf (c :: cs) then some ([], (c :: cs).drop pat.length)
    else
      match splitFirst pat cs with
      | some (l, r) => some (c :: l, r)
      | none => none

def thinkOpenTag : List Char := "<think>".toList

def thinkCloseTag : List Char := "</think>".toList

/-- Step 1: remove every `<think>...</think>` span; an unterminated
trailing `<think>` removes everything through end of string. -/
def removeThinkF : Nat → List Char → List Char
  | 0, l => l
  | f + 1, l =>
    match splitFirst thinkOpenTag l with
    | none => l
    | some (front, rest) =>
      match splitFirst thinkCloseTag rest with
      | none => front
      | some r2 => front ++ removeThinkF f r2.2

def removeThink (l : List Char) : List Char := removeThinkF l.length l

/-- Step 2: left-to-right removal of every occurrence of `pat` (the
semantics of Python `str.replace(pat, "")`: no rescan of a removal
point). -/
def removeAllF (pat : List Char) : Nat → List Char → List Char
  | 0, l => l
  | _, [] => []
  | f + 1, c :: cs =>
    if pat.isPrefixOf (c :: cs) then removeAllF pat f ((c :: cs).drop pat.length)
    else c :: removeAllF pat f cs

def removeAll (pat : List Char) (l : List Char) : List Char :=
  removeAllF pat l.length l

/-- Length of the leading newline run. -/
def leadNL : List Char → Nat
  | [] => 0
  | c :: cs => if c = '\n' then leadNL cs + 1 else 0

/-- Whether the text contains a run of 3 or more consecutive newlines. -/
def hasTriple : List Char → Bool
  | [] => false
  | c :: cs => if c = '\n' ∧ 2 ≤ leadNL cs then true else hasTriple cs

/-- Newline-collapsing scan: `k` counts the newlines of the current run
already seen; a newline is kept only while fewer than 2 of its run have
been emitted, so a run of length m comes out with length `min m 2`. -/
def collapseGo : Nat → List Char → List Char
  | _, [] => []
  | k, c :: cs =>
    if c = '\n' then
      if k < 2 then '\n' :: collapseGo (k + 1) cs else collapseGo (k + 1) cs
    else c :: collapseGo 0 cs

def collapseNL (l : List Char) : List Char := collapseGo 0 l

def trimLeft : List Char → List Char
  | [] => []
  | c :: cs => if c.isWhitespace then trimLeft cs else c :: cs

def trimRight : List Char → List Char
  | [] => []
  | c :: cs =>
    match trimRight cs with
    | [] => if c.isWhitespace then [] else [c]
    | r => c :: r

def trim (l : List Char) : List Char := trimRight (trimLeft l)

/-- Step 3: collapse 3+ consecutive newlines to exactly 2, then trim
leading and trailing whitespace. -/
def step3 (l : List Char) : List Char := trim (collapseNL l)

def lowerList (l : List Char) : List Char := l.map Char.toLower

/-- The fixed list of known lead-in phrases recognized case-insensitively
(spec gives "Here is the enhanced prompt:" as the exemplar). -/
def knownPrefixes : List (List Char) :=
  ["here is the enhanced prompt:".toList,
   "here is the improved prompt:".toList,
   "here is your enhanced prompt:".toList]

/-- Step 4: strip a known lead-in phrase when the text starts with it
(case-insensitive exact match). -/
def stripKnown (l : List Char) : Option (List Char) :=
  knownPrefixes.findSome? fun p =>
    if p.isPrefixOf (lowerList l) then some (l.drop p.length) else none

def keywordList : List (List Char) :=
  ["enhance".toList, "improve".toList, "prompt".toList,
   "version".toList, "here".toList]

def containsSub (pat : List Char) : List Char → Bool
  | [] => decide (pat = [])
  | c :: cs => pat.isPrefixOf (c :: cs) || containsSub pat cs

/-- Step 5: when no fixed phrase matched, strip a generic lead-in ending
in the first colon, but only when it contains one of the keywords. -/
def stripLeadIn (l : List Char) : List Char :=
  match splitFirst [':'] l with
  | some (front, post) =>
    if keywordList.any (fun k => containsSub k (lowerList front)) then post
    else l
  | none => l

def step45 (l : List Char) : List Char :=
  match stripKnown l with
  | some r => r
  | none => stripLeadIn l

/-- Strip the wrapper `w` from both ends when the text starts and ends
with it and is long enough to carry both copies. -/
def stripWrap (w l : List Char) : Option (List Char) :=
  if w.isPrefixOf l ∧ w.isSuffixOf l ∧ 2 * w.length ≤ l.length then
    some ((l.drop w.length).take (l.length - 2 * w.length))
  else none

def dquoteChar : Char := Char.ofNat 34

def squoteChar : Char := Char.ofNat 39

def fenceChar : Char := Char.ofNat 96

/-- Step 6: strip matching wrapping quotes, triple forms first. -/
def stripQuotes (l : List Char) : List Char :=
  match stripWrap [dquoteChar, dquoteChar, dquoteChar] l with
  | some r => r
  | none =>
    match stripWrap [squoteChar, squoteChar, squoteChar] l with
    | some r => r
    | none =>
      match stripWrap [dquoteChar] l with
      | some r => r
      | none =>
        match stripWrap [squoteChar] l with
        | some r => r
        | none => l

/-- Step 7: strip a wrapping code fence, keeping the inner content. -/
def stripFence (l : List Char) : List Char :=
  match stripWrap [fenceChar, fenceChar, fenceChar] l with
  | some r => r
  | none => l

def sanitizeList (l : List Char) : List Char :=
  stripFence (stripQuotes (step45 (step3
    (removeAll thinkCloseTag (removeAll thinkOpenTag (removeThink l))))))

/-- Modelled from the spec: `sanitize` (spec section 4.5), the fixed-order
text-rule pipeline applied to raw model output. -/
def sanitize (s : String) : String := String.mk (sanitizeList s.toList)

/-! ## Theorems -/

theorem numAttempts_nil : numAttempts ([] : List REvent) = 0 := rfl

theorem numAttempts_attempt (i : Nat) (tr : List REvent) :
    numAttempts (.attempt i :: tr) = numAttempts tr + 1 := by
  simp [numAttempts, List.countP_cons]

theorem numAttempts_sleep (d : Nat) (tr : List REvent) :
    numAttempts (.sleep d :: tr) = numAttempts tr := by
  simp [numAttempts, List.countP_cons]

/-- For at least one remaining iteration, the trace starts with the attempt
at the current index: no sleep ever precedes an attempt run. -/
theorem retryFrom_trace_head (op : Nat → Except E A) (d : Nat) (r i : Nat)
    (hr : 1 ≤ r) :
    ∃ tl, (retryFrom op d r i).2 = .attempt i :: tl := by
  match r, hr with
  | 1, _ =>
    cases hop : op i <;> simp [retryFrom, hop]
  | (r' + 2), _ =>
    cases hop : op i <;> simp [retryFrom, hop]

/-- Attempt indices occurring in a `retryFrom` trace are at least the
starting index. -/
theorem retryFrom_attempt_ge (op : Nat → Except E A) (d : Nat) :
    ∀ (r i k : Nat), REvent.attempt k ∈ (retryFrom op d r i).2 → i ≤ k := by
  intro r
  induction r with
  | zero => intro i k hk; simp [retryFrom] at hk
  | succ n ih =>
    intro i k hk
    match n with
    | 0 =>
      cases hop : op i <;> simp [retryFrom, hop] at hk <;> omega
    | (m + 1) =>
      cases hop : op i with
      | ok a => simp [retryFrom, hop] at hk; omega
      | error e =>
        simp [retryFrom, hop] at hk
        rcases hk with hk | hk
        · omega
        · have := ih (i + 1) k hk
          omega

/-- The sleep executed immediately before attempt `k` (for `k` past the
starting index) passes `d * 2 ^ (k - 1)` to `time.sleep`. -/
theorem retryFrom_sleep_before (op : Nat → Except E A) (d : Nat) :
    ∀ (r i k : Nat), i < k → REvent.attempt k ∈ (retryFrom op d r i).2 →
      [REvent.sleep (d * 2 ^ (k - 1)), REvent.attempt k] <:+: (retryFrom op d r i).2 := by
  intro r
  induction r with
  | zero => intro i k _ hk; simp [retryFrom] at hk
  | succ n ih =>
    intro i k hik hk
    match n with
    | 0 =>
      cases hop : op i <;> simp [retryFrom, hop] at hk <;> omega
    | (m + 1) =>
      cases hop : op i with
      | ok a =>
        simp [retryFrom, hop] at hk
        omega
      | error e =>
        simp only [retryFrom, hop] at hk ⊢
        simp only [List.mem_cons] at hk
        rcases hk with hk | hk | hk
        · exact absurd hk (by intro h; cases h; omega)
        · exact absurd hk (by intro h; cases h)
        · by_cases hk1 : k = i + 1
          · subst hk1
            obtain ⟨tl, htl⟩ := retryFrom_trace_head op d (m + 1) (i + 1) (by omega)
            refine ⟨[REvent.attempt i], tl, ?_⟩
            simp [htl, Nat.add_sub_cancel]
          · have hik1 : i + 1 < k := by
              have := retryFrom_attempt_ge op d (m + 1) (i + 1) k hk
              omega
            have := ih (i + 1) k hik1 hk
            obtain ⟨s, t, hst⟩ := this
            exact ⟨REvent.attempt i :: REvent.sleep (d * 2 ^ i) :: s, t, by simp [hst]⟩

/-- Claim C7: in `retry_with_backoff`, for every attempt number n (1-based,
n at least 2) that is actually executed, the blocking delay passed to
`time.sleep` immediately before it equals `initial_delay * 2 ^ (n - 2)`
(exponential backoff doubling from `initial_delay`), and no delay precedes
the first attempt (a non-empty trace starts with attempt 0). -/
theorem retry_backoff_delays (E A : Type) (op : Nat → Except E A)
    (d : Nat) (m : Int) :
    ((retry_with_backoff op m d).2 = []
      ∨ (retry_with_backoff op m d).2.head? = some (.attempt 0))
    ∧ ∀ n : Nat, 2 ≤ n →
        REvent.attempt (n - 1) ∈ (retry_with_backoff op m d).2 →
        [REvent.sleep (d * 2 ^ (n - 2)), REvent.attempt (n - 1)]
          <:+: (retry_with_backoff op m d).2 := by
  constructor
  · by_cases hm : 1 ≤ m.toNat
    · right
      obtain ⟨tl, htl⟩ := retryFrom_trace_head op d m.toNat 0 hm
      simp [retry_with_backoff, htl]
    · left
      have : m.toNat = 0 := by omega
      simp [retry_with_backoff, this, retryFrom]
  · intro n hn hmem
    have h1 : 0 < n - 1 := by omega
    have := retryFrom_sleep_before op d m.toNat 0 (n - 1) h1 hmem
    have heq : n - 1 - 1 = n - 2 := by omega
    rw [heq] at this
    exact this

/-- Witness for C7: a concrete always-failing operation with
`initial_delay = 5` and `max_retries = 3` sleeps exactly 5 units before
its second attempt. -/
theorem retry_backoff_delays_witness :
    [REvent.sleep (5 * 2 ^ 0), REvent.attempt 1]
      <:+: (retry_with_backoff (fun _ => (Except.error "x" : Except String Unit)) 3 5).2 :=
  (retry_backoff_delays String Unit (fun _ => Except.error "x") 5 3).2 2
    (by decide) (by decide)

/-- If every invocation before the last fails and the last invocation fails
with `e`, the run raises `e` and performs exactly `r` invocations. -/
theorem retryFrom_all_fail (op : Nat → Except E A) (d : Nat) (e : E) :
    ∀ (r i : Nat), 1 ≤ r →
      (∀ k, k + 1 < r → ∃ e', op (i + k) = Except.error e') →
      op (i + (r - 1)) = Except.error e →
      (retryFrom op d r i).1 = ROutcome.raised e
        ∧ numAttempts (retryFrom op d r i).2 = r := by
  intro r
  induction r with
  | zero => intro i h; omega
  | succ n ih =>
    intro i _ hfail hlast
    match n with
    | 0 =>
      simp only [Nat.add_sub_cancel] at hlast
      simp only [Nat.add_zero] at hlast
      simp [retryFrom, hlast, numAttempts_attempt, numAttempts_nil]
    | (m + 1) =>
      obtain ⟨e', he'⟩ := hfail 0 (by omega)
      simp only [Nat.add_zero] at he'
      simp only [retryFrom, he']
      have hrec := ih (i + 1) (by omega)
        (fun k hk => by
          have := hfail (k + 1) (by omega)
          simpa [Nat.add_assoc, Nat.add_comm 1 k] using this)
        (by
          have : i + 1 + (m + 1 - 1) = i + (m + 2 - 1) := by omega
          rw [this]; exact hlast)
      refine ⟨hrec.1, ?_⟩
      rw [numAttempts_attempt, numAttempts_sleep, hrec.2]

/-- Claim C6: `retry_with_backoff` with `max_retries = 3` applied to an
operation failing on its first two invocations and succeeding on the third
returns the success result after exactly 3 invocations; in general, when
every attempt before the last fails and the final attempt raises `e`, the
exception `e` propagates unmodified while the earlier failures are
swallowed, each followed by a retry (all `m` invocations execute). -/
theorem retry_fail_twice_then_succeed :
    (∀ (E A : Type) (op : Nat → Except E A) (d : Nat) (e₀ e₁ : E) (a : A),
      op 0 = Except.error e₀ → op 1 = Except.error e₁ → op 2 = Except.ok a →
      (retry_with_backoff op 3 d).1 = ROutcome.value a
        ∧ numAttempts (retry_with_backoff op 3 d).2 = 3)
    ∧ (∀ (E A : Type) (op : Nat → Except E A) (d m : Nat) (e : E),
      1 ≤ m →
      (∀ k, k + 1 < m → ∃ e', op k = Except.error e') →
      op (m - 1) = Except.error e →
      (retry_with_backoff op (m : Int) d).1 = ROutcome.raised e
        ∧ numAttempts (retry_with_backoff op (m : Int) d).2 = m) := by
  constructor
  · intro E A op d e₀ e₁ a h0 h1 h2
    have : ((3 : Int)).toNat = 3 := rfl
    simp [retry_with_backoff, this, retryFrom, h0, h1, h2,
      numAttempts_attempt, numAttempts_sleep, numAttempts_nil]
  · intro E A op d m e hm hfail hlast
    have htm : ((m : Int)).toNat = m := Int.toNat_natCast m
    rw [retry_with_backoff, htm]
    exact retryFrom_all_fail op d e m 0 hm
      (fun k hk => by simpa using hfail k hk)
      (by simpa using hlast)

/-- Witness for C6: the operation failing on invocations 0 and 1 and
returning 42 on invocation 2 yields the value 42 in exactly 3 attempts. -/
theorem retry_fail_twice_then_succeed_witness :
    (retry_with_backoff
        (fun i => if i < 2 then Except.error "boom" else Except.ok 42) 3 7).1
      = ROutcome.value 42
    ∧ numAttempts (retry_with_backoff
        (fun i => if i < 2 then Except.error "boom" else Except.ok 42) 3 7).2 = 3 :=
  retry_fail_twice_then_succeed.1 String Nat
    (fun i => if i < 2 then Except.error "boom" else Except.ok 42) 7
    "boom" "boom" 42 rfl rfl rfl

/-- Claim C10: `retry_with_backoff` invoked with a non-positive
`max_retries` returns Python `None` without invoking the operation at all
and without raising: the `range` loop body never runs, so the caller gets
neither a result nor an error signal. -/
theorem retry_zero_attempts (E A : Type) (op : Nat → Except E A)
    (d : Nat) (m : Int) (hm : m ≤ 0) :
    retry_with_backoff op m d = (ROutcome.noneResult, []) := by
  have : m.toNat = 0 := Int.toNat_of_nonpos hm
  simp [retry_with_backoff, this, retryFrom]

/-- Witness for C10: `max_retries = -2` on an always-succeeding operation
still produces no result, no attempts and no sleeps. -/
theorem retry_zero_attempts_witness :
    retry_with_backoff (fun _ => (Except.ok () : Except String Unit)) (-2) 1
      = (ROutcome.noneResult, []) :=
  retry_zero_attempts String Unit (fun _ => Except.ok ()) 1 (-2) (by decide)

/-- Counterexample for C4: the health endpoint is not a read-only snapshot.
From a state with zero consecutive failures, one invocation with an
initialized Groq client whose probe fails leaves the Groq tracker with
`consecutive_failures = 1`, `healthy = false` and a stored error. -/
theorem health_endpoint_mutates_counterexample :
    health_check true true (Except.error "connection refused")
        (Except.error "timeout")
        ⟨⟨false, none, none, 0⟩, ⟨false, none, none, 0⟩⟩ 5
      ≠ ⟨⟨false, none, none, 0⟩, ⟨false, none, none, 0⟩⟩ := by
  decide

/-- Claim C4 (amended): the health endpoint performs live probes, not a
read-only snapshot: for each provider, if its client is uninitialized its
tracker is untouched, and otherwise the probe outcome is recorded on the
tracker (success update on a successful probe, failure update on a failed
one). -/
theorem health_endpoint_probe_effects (gc dc : Bool)
    (gp dp : Except String Unit) (st : HState) (now : Nat) :
    ((gc = false → (health_check gc dc gp dp st now).groq = st.groq)
      ∧ (∀ u, gc = true → gp = Except.ok u →
          (health_check gc dc gp dp st now).groq = recordSuccess st.groq now)
      ∧ (∀ e, gc = true → gp = Except.error e →
          (health_check gc dc gp dp st now).groq = recordFailure st.groq e now))
    ∧ ((dc = false → (health_check gc dc gp dp st now).deepseek = st.deepseek)
      ∧ (∀ u, dc = true → dp = Except.ok u →
          (health_check gc dc gp dp st now).deepseek = recordSuccess st.deepseek now)
      ∧ (∀ e, dc = true → dp = Except.error e →
          (health_check gc dc gp dp st now).deepseek = recordFailure st.deepseek e now)) := by
  cases gc <;> cases dc <;> cases gp <;> cases dp <;>
    simp [health_check, perform_health_checks, check_api_health]

/-- Witness for C4's amended theorem: with an initialized Groq client whose
probe fails with "connection refused", the endpoint records that failure on
the Groq tracker. -/
theorem health_endpoint_probe_effects_witness :
    (health_check true true (Except.error "connection refused")
        (Except.ok ()) ⟨⟨false, none, none, 0⟩, ⟨false, none, none, 0⟩⟩ 5).groq
      = recordFailure ⟨false, none, none, 0⟩ "connection refused" 5 :=
  (health_endpoint_probe_effects true true (Except.error "connection refused")
      (Except.ok ()) ⟨⟨false, none, none, 0⟩, ⟨false, none, none, 0⟩⟩ 5).1.2.2
    "connection refused" rfl rfl

/-- Counterexample for C5: the success-path update does not clear
`last_error`.  A tracker holding the error "boom" still holds it after the
success update. -/
theorem recordSuccess_keeps_last_error_counterexample :
    (recordSuccess ⟨false, none, some "boom", 2⟩ 7).last_error ≠ none := by
  decide

/-- Claim C5 (amended): the success-path update sets `healthy = true`,
resets `consecutiveFailures` to 0 and stamps the check time, but leaves
`lastError` exactly as it was (the code never assigns it on success). -/
theorem recordSuccess_effects (s : APIStatus) (now : Nat) :
    (recordSuccess s now).is_healthy = true
    ∧ (recordSuccess s now).consecutive_failures = 0
    ∧ (recordSuccess s now).last_check_time = some now
    ∧ (recordSuccess s now).last_error = s.last_error :=
  ⟨rfl, rfl, rfl, rfl⟩

/-- Counterexample for C1: the gateway does return HTTP 503 on a non-empty
prompt.  With both clients initialized but both health probes failing and
no successful reinitialization, the request "write a poem" is answered
with status 503 (there is no local rule-based fallback in the code). -/
theorem enhance_returns_503_counterexample :
    (enhance_prompt
        ⟨true, "write a poem", "user", true, true, Except.error "down",
          Except.error "down", false, Except.ok (), Except.ok "X", Except.ok "Y"⟩
        ⟨⟨false, none, none, 0⟩, ⟨false, none, none, 0⟩⟩ 0).status = 503 := by
  decide

/-- Claim C1 (amended): there is no local rule-based fallback; for a
request with a non-empty prompt, the gateway returns HTTP 503 exactly when
no attempted provider call succeeds — both providers unhealthy after the
one reinitialization attempt, or every attempted completion call failing —
and a non-error result otherwise. -/
theorem enhance_503_iff_no_success (env : EnhanceEnv) (st : HState)
    (now : Nat) (h1 : env.dataPresent = true) (h2 : ¬ env.prompt = "") :
    (enhance_prompt env st now).status = 503 ↔ enhanceSucceeds env = false := by
  obtain ⟨dp, p, pt, gc, dc, gp, dpr, rg, rp, gcl, dcl⟩ := env
  simp only at h1 h2
  subst h1
  simp only [enhance_prompt, h2, if_false, Bool.true_eq_false, if_neg, ite_false]
  cases gc <;> cases dc <;> cases gp <;> cases dpr <;> cases rg <;>
    cases rp <;> cases gcl <;> cases dcl <;>
    simp [providerStage, attemptStage, perform_health_checks, check_api_health,
      isOkB, enhanceSucceeds, groqAttemptCond, dsAttemptCond, bothDown0,
      groqHealthy0, dsHealthy0, reinitWorks, allDownBody]

/-- Witness for C1's amended theorem: with Groq healthy and its call
succeeding, the status is not 503. -/
theorem enhance_503_iff_no_success_witness :
    ¬ (enhance_prompt
        ⟨true, "write a poem", "user", true, true, Except.ok (),
          Except.ok (), false, Except.ok (), Except.ok "X", Except.ok "Y"⟩
        ⟨⟨false, none, none, 0⟩, ⟨false, none, none, 0⟩⟩ 0).status = 503 := by
  intro h
  have := (enhance_503_iff_no_success
      ⟨true, "write a poem", "user", true, true, Except.ok (),
        Except.ok (), false, Except.ok (), Except.ok "X", Except.ok "Y"⟩
      ⟨⟨false, none, none, 0⟩, ⟨false, none, none, 0⟩⟩ 0 rfl
      (by decide)).mp h
  exact absurd this (by decide)

/-- Counterexample for C2: a successful enhancement response carries only
the field `enhanced_prompt` — no `original_prompt`, no `prompt_type`, no
`metadata`. -/
theorem success_body_missing_fields_counterexample :
    (enhance_prompt
        ⟨true, "write a poem", "user", true, true, Except.ok (),
          Except.ok (), false, Except.ok (), Except.ok "X", Except.ok "Y"⟩
        ⟨⟨false, none, none, 0⟩, ⟨false, none, none, 0⟩⟩ 0).status = 200
    ∧ ((enhance_prompt
        ⟨true, "write a poem", "user", true, true, Except.ok (),
          Except.ok (), false, Except.ok (), Except.ok "X", Except.ok "Y"⟩
        ⟨⟨false, none, none, 0⟩, ⟨false, none, none, 0⟩⟩ 0).body.map Prod.fst)
      = ["enhanced_prompt"] := by
  decide

/-- Claim C2 (amended): on success the endpoint returns 200 with a JSON
body containing exactly the field `enhanced_prompt`; on failure it returns
a body containing exactly the field `error`, with status 400 (bad input)
or 503 (providers unavailable or all attempted calls failed).  There is no
`details`/`error_type` field and no `metadata` object; 500 arises only
from unexpected framework-level exceptions outside this model, and an
unauthenticated caller is redirected to the login page by `requires_auth`
rather than receiving a 401 from this endpoint. -/
theorem enhance_response_shape (env : EnhanceEnv) (st : HState) (now : Nat) :
    ((enhance_prompt env st now).status = 200
      ∧ ∃ s, (enhance_prompt env st now).body = [("enhanced_prompt", s)])
    ∨ (((enhance_prompt env st now).status = 400
        ∨ (enhance_prompt env st now).status = 503)
      ∧ ∃ m, (enhance_prompt env st now).body = [("error", m)]) := by
  obtain ⟨dp, p, pt, gc, dc, gp, dpr, rg, rp, gcl, dcl⟩ := env
  cases dp
  · simp [enhance_prompt]
  · by_cases hp : p = ""
    · simp [enhance_prompt, hp]
    · simp only [enhance_prompt, hp, Bool.true_eq_false, if_neg, ite_false,
        if_false]
      cases gc <;> cases dc <;> cases gp <;> cases dpr <;> cases rg <;>
        cases rp <;> cases gcl <;> cases dcl <;>
        simp [providerStage, attemptStage, perform_health_checks,
          check_api_health, isOkB, allDownBody]

/-- Claim C8: in every run, the enhancement completion calls form the
sequence "Groq then DeepSeek", each at most once (the primary is never
attempted after the fallback, and the embedding is strictly sequential),
and DeepSeek is attempted only when Groq was not attempted — because it
was recorded unhealthy or uninitialized — or Groq's call failed. -/
theorem fallback_ordering (env : EnhanceEnv) (st : HState) (now : Nat) :
    (apiCalls (enhance_prompt env st now).trace
      = (if groqAttemptCond env ∧ env.dataPresent = true ∧ ¬ env.prompt = ""
          then [PEvent.apiCall true] else [])
        ++ (if dsAttemptCond env ∧ env.dataPresent = true ∧ ¬ env.prompt = ""
          then [PEvent.apiCall false] else []))
    ∧ (dsAttemptCond env = true →
        groqAttemptCond env = false ∨ ∃ e, env.groqCall = Except.error e) := by
  obtain ⟨dp, p, pt, gc, dc, gp, dpr, rg, rp, gcl, dcl⟩ := env
  constructor
  · cases dp
    · simp [enhance_prompt, apiCalls]
    · by_cases hp : p = ""
      · simp [enhance_prompt, hp, apiCalls]
      · simp only [enhance_prompt, hp, Bool.true_eq_false, if_neg, ite_false,
          if_false]
        cases gc <;> cases dc <;> cases gp <;> cases dpr <;> cases rg <;>
          cases rp <;> cases gcl <;> cases dcl <;>
          simp [providerStage, attemptStage, perform_health_checks,
            check_api_health, isOkB, apiCalls, groqAttemptCond, dsAttemptCond,
            bothDown0, groqHealthy0, dsHealthy0, reinitWorks, allDownBody, hp]
  · intro hds
    cases gcl with
    | error e => exact Or.inr ⟨e, rfl⟩
    | ok s =>
      left
      simp only [dsAttemptCond, isOkB] at hds
      cases hq : groqAttemptCond ⟨dp, p, pt, gc, dc, gp, dpr, rg, rp,
          Except.ok s, dcl⟩
      · rfl
      · rw [hq] at hds; simp at hds

/-- Witness for C8: with both providers healthy and Groq's call failing,
the trace is exactly the Groq call followed by the DeepSeek call, and the
fallback condition is met through Groq's failure. -/
theorem fallback_ordering_witness :
    apiCalls (enhance_prompt
        ⟨true, "p", "user", true, true, Except.ok (), Except.ok (), false,
          Except.ok (), Except.error "g", Except.ok "Y"⟩
        ⟨⟨false, none, none, 0⟩, ⟨false, none, none, 0⟩⟩ 0).trace
      = [PEvent.apiCall true, PEvent.apiCall false]
    ∧ (groqAttemptCond
          ⟨true, "p", "user", true, true, Except.ok (), Except.ok (), false,
            Except.ok (), Except.error "g", Except.ok "Y"⟩ = false
        ∨ ∃ e, (⟨true, "p", "user", true, true, Except.ok (), Except.ok (),
            false, Except.ok (), Except.error "g", Except.ok "Y"⟩
              : EnhanceEnv).groqCall = Except.error e) := by
  constructor
  · have h := (fallback_ordering
        ⟨true, "p", "user", true, true, Except.ok (), Except.ok (), false,
          Except.ok (), Except.error "g", Except.ok "Y"⟩
        ⟨⟨false, none, none, 0⟩, ⟨false, none, none, 0⟩⟩ 0).1
    rw [h]
    decide
  · exact (fallback_ordering
        ⟨true, "p", "user", true, true, Except.ok (), Except.ok (), false,
          Except.ok (), Except.error "g", Except.ok "Y"⟩
        ⟨⟨false, none, none, 0⟩, ⟨false, none, none, 0⟩⟩ 0).2 (by decide)

/-- Claim C9: a request with missing data or an empty prompt is answered
with HTTP 400, and nothing else happens: no health probe, no provider
call, no retry, and the global trackers are untouched. -/
theorem empty_prompt_400_no_calls (env : EnhanceEnv) (st : HState)
    (now : Nat) (h : env.dataPresent = false ∨ env.prompt = "") :
    (enhance_prompt env st now).status = 400
    ∧ (enhance_prompt env st now).trace = []
    ∧ (enhance_prompt env st now).state = st := by
  rcases h with h | h
  · simp [enhance_prompt, h]
  · cases hdp : env.dataPresent
    · simp [enhance_prompt, hdp]
    · simp [enhance_prompt, hdp, h]

/-- Witness for C9: the empty-prompt request gets 400, an empty trace and
an unchanged tracker state. -/
theorem empty_prompt_400_no_calls_witness :
    (enhance_prompt
        ⟨true, "", "user", true, true, Except.ok (), Except.ok (), false,
          Except.ok (), Except.ok "X", Except.ok "Y"⟩
        ⟨⟨false, none, none, 0⟩, ⟨false, none, none, 0⟩⟩ 0).status = 400
    ∧ (enhance_prompt
        ⟨true, "", "user", true, true, Except.ok (), Except.ok (), false,
          Except.ok (), Except.ok "X", Except.ok "Y"⟩
        ⟨⟨false, none, none, 0⟩, ⟨false, none, none, 0⟩⟩ 0).trace = []
    ∧ (enhance_prompt
        ⟨true, "", "user", true, true, Except.ok (), Except.ok (), false,
          Except.ok (), Except.ok "X", Except.ok "Y"⟩
        ⟨⟨false, none, none, 0⟩, ⟨false, none, none, 0⟩⟩ 0).state
      = ⟨⟨false, none, none, 0⟩, ⟨false, none, none, 0⟩⟩ :=
  empty_prompt_400_no_calls _ _ 0 (Or.inr rfl)

theorem leadNL_nil : leadNL [] = 0 := rfl

theorem leadNL_cons (c : Char) (cs : List Char) :
    leadNL (c :: cs) = if c = '\n' then leadNL cs + 1 else 0 := rfl

theorem hasTriple_cons (c : Char) (cs : List Char) :
    hasTriple (c :: cs)
      = if c = '\n' ∧ 2 ≤ leadNL cs then true else hasTriple cs := rfl

theorem trimRight_cons_of_nil (c : Char) (cs : List Char)
    (h : trimRight cs = []) :
    trimRight (c :: cs) = if c.isWhitespace = true then [] else [c] := by
  show (match trimRight cs with
        | [] => if c.isWhitespace = true then [] else [c]
        | r => c :: r) = _
  rw [h]

theorem trimRight_cons_of_ne (c x : Char) (cs xs : List Char)
    (h : trimRight cs = x :: xs) : trimRight (c :: cs) = c :: x :: xs := by
  show (match trimRight cs with
        | [] => if c.isWhitespace = true then [] else [c]
        | r => c :: r) = _
  rw [h]

theorem leadNL_eq_zero (c : Char) (cs : List Char)
    (h : c.isWhitespace = false) : leadNL (c :: cs) = 0 := by
  have hc : ¬ c = '\n' := by
    intro hh; subst hh; exact absurd h (by decide)
  simp [leadNL, hc]

theorem hasTriple_cons_false (c : Char) (cs : List Char)
    (h : hasTriple (c :: cs) = false) : hasTriple cs = false := by
  by_cases hcond : c = '\n' ∧ 2 ≤ leadNL cs
  · rw [hasTriple, if_pos hcond] at h; cases h
  · rw [hasTriple, if_neg hcond] at h; exact h

theorem hasTriple_nl_not_two (cs : List Char)
    (h : hasTriple ('\n' :: cs) = false) : ¬ 2 ≤ leadNL cs := by
  intro h2
  rw [hasTriple, if_pos ⟨rfl, h2⟩] at h
  cases h

theorem leadNL_le_two (l : List Char) (h : hasTriple l = false) :
    leadNL l ≤ 2 := by
  cases l with
  | nil => simp [leadNL]
  | cons c cs =>
    by_cases hc : c = '\n'
    · subst hc
      have := hasTriple_nl_not_two cs h
      simp [leadNL]
      omega
    · simp [leadNL, hc]

/-- Invariant of the collapsing scan: the output's leading newline run is
bounded by what the current run may still emit, and the output never
contains three consecutive newlines. -/
theorem collapseGo_inv (l : List Char) :
    ∀ k, leadNL (collapseGo k l) + min k 2 ≤ 2
      ∧ hasTriple (collapseGo k l) = false := by
  induction l with
  | nil =>
    intro k
    refine ⟨?_, by simp [collapseGo, hasTriple]⟩
    simp [collapseGo, leadNL]
  | cons c cs ih =>
    intro k
    by_cases hc : c = '\n'
    · subst hc
      by_cases hk : k < 2
      · have h1 := ih (k + 1)
        constructor
        · have := h1.1
          simp [collapseGo, hk, leadNL]
          omega
        · have h2 : ¬ 2 ≤ leadNL (collapseGo (k + 1) cs) := by
            have := h1.1; omega
          simp [collapseGo, hk, hasTriple, h2, h1.2]
      · have h1 := ih (k + 1)
        constructor
        · have := h1.1
          simp [collapseGo, hk]
          omega
        · simp [collapseGo, hk, h1.2]
    · have h1 := ih 0
      constructor
      · simp [collapseGo, hc, leadNL]
      · have h2 := h1.2
        simp [collapseGo, hc, hasTriple, h2]

/-- The collapsing scan is the identity on text with no triple-newline run
whose leading run still fits the current counter. -/
theorem collapseGo_id (l : List Char) :
    ∀ k, hasTriple l = false → leadNL l + min k 2 ≤ 2 →
      collapseGo k l = l := by
  induction l with
  | nil => intro k _ _; simp [collapseGo]
  | cons c cs ih =>
    intro k hT hlead
    by_cases hc : c = '\n'
    · subst hc
      have hTc : hasTriple cs = false := hasTriple_cons_false _ _ hT
      have hble : ¬ 2 ≤ leadNL cs := hasTriple_nl_not_two cs hT
      have hlead' : leadNL cs + 1 + min k 2 ≤ 2 := by
        have : leadNL ('\n' :: cs) = leadNL cs + 1 := by simp [leadNL]
        omega
      have hk : k < 2 := by omega
      have hrec : collapseGo (k + 1) cs = cs := ih (k + 1) hTc (by omega)
      simp [collapseGo, hk, hrec]
    · have hTc : hasTriple cs = false := hasTriple_cons_false _ _ hT
      have hlc : leadNL cs ≤ 2 := leadNL_le_two cs hTc
      have hrec : collapseGo 0 cs = cs := ih 0 hTc (by omega)
      simp [collapseGo, hc, hrec]

theorem trimLeft_head (l : List Char) :
    trimLeft l = [] ∨ ∃ c cs, trimLeft l = c :: cs ∧ c.isWhitespace = false := by
  induction l with
  | nil => left; rfl
  | cons c cs ih =>
    by_cases hw : c.isWhitespace = true
    · simpa [trimLeft, hw] using ih
    · right
      exact ⟨c, cs, by simp [trimLeft, hw], by simpa using hw⟩

theorem trimRight_cons_not_ws (c : Char) (cs : List Char)
    (h : c.isWhitespace = false) : ∃ r, trimRight (c :: cs) = c :: r := by
  cases hr : trimRight cs with
  | nil => exact ⟨[], by simp [trimRight, hr, h]⟩
  | cons x xs => exact ⟨x :: xs, by simp [trimRight, hr]⟩

theorem trimRight_idem (l : List Char) :
    trimRight (trimRight l) = trimRight l := by
  induction l with
  | nil => rfl
  | cons c cs ih =>
    cases hr : trimRight cs with
    | nil =>
      rw [trimRight_cons_of_nil c cs hr]
      by_cases hw : c.isWhitespace = true
      · rw [if_pos hw]; rfl
      · rw [if_neg hw, trimRight_cons_of_nil c [] rfl, if_neg hw]
    | cons x xs =>
      have h2 : trimRight (x :: xs) = x :: xs := by rw [← hr, ih, hr]
      rw [trimRight_cons_of_ne c x cs xs hr,
        trimRight_cons_of_ne c x (x :: xs) xs h2]

theorem trim_head_not_ws (l : List Char) :
    trim l = [] ∨ ∃ c r, trim l = c :: r ∧ c.isWhitespace = false := by
  rcases trimLeft_head l with h | ⟨c, cs, h1, h2⟩
  · left; simp [trim, h, trimRight]
  · obtain ⟨r, hr⟩ := trimRight_cons_not_ws c cs h2
    right
    exact ⟨c, r, by simp [trim, h1, hr], h2⟩

theorem trim_idem (l : List Char) : trim (trim l) = trim l := by
  rcases trim_head_not_ws l with h | ⟨c, r, h1, h2⟩
  · rw [h]; rfl
  · rw [h1]
    have hL : trimLeft (c :: r) = c :: r := by simp [trimLeft, h2]
    show trimRight (trimLeft (c :: r)) = c :: r
    rw [hL, ← h1]
    exact trimRight_idem (trimLeft l)

theorem hasTriple_trimLeft (l : List Char) (h : hasTriple l = false) :
    hasTriple (trimLeft l) = false := by
  induction l with
  | nil => simpa using h
  | cons c cs ih =>
    by_cases hw : c.isWhitespace = true
    · rw [trimLeft, if_pos hw]
      exact ih (hasTriple_cons_false _ _ h)
    · rwa [trimLeft, if_neg hw]

theorem leadNL_trimRight_le (l : List Char) :
    leadNL (trimRight l) ≤ leadNL l := by
  induction l with
  | nil => simp [trimRight]
  | cons c cs ih =>
    cases hr : trimRight cs with
    | nil =>
      rw [trimRight_cons_of_nil c cs hr]
      by_cases hw : c.isWhitespace = true
      · rw [if_pos hw, leadNL_nil]
        exact Nat.zero_le _
      · rw [if_neg hw, leadNL_cons, leadNL_cons]
        by_cases hc : c = '\n'
        · rw [if_pos hc, if_pos hc, leadNL_nil]
          omega
        · rw [if_neg hc, if_neg hc]
    | cons x xs =>
      rw [hr] at ih
      rw [trimRight_cons_of_ne c x cs xs hr]
      by_cases hc : c = '\n'
      · rw [leadNL_cons, if_pos hc]
        conv_rhs => rw [leadNL_cons, if_pos hc]
        omega
      · rw [leadNL_cons, if_neg hc]
        exact Nat.zero_le _

theorem hasTriple_trimRight (l : List Char) (h : hasTriple l = false) :
    hasTriple (trimRight l) = false := by
  induction l with
  | nil => simpa [trimRight] using h
  | cons c cs ih =>
    have hTc := hasTriple_cons_false _ _ h
    have ih2 := ih hTc
    cases hr : trimRight cs with
    | nil =>
      rw [trimRight_cons_of_nil c cs hr]
      by_cases hw : c.isWhitespace = true
      · rw [if_pos hw]; rfl
      · rw [if_neg hw, hasTriple_cons]
        have hno : ¬ (c = '\n' ∧ 2 ≤ leadNL ([] : List Char)) := by
          rintro ⟨-, hh⟩
          rw [leadNL_nil] at hh
          omega
        rw [if_neg hno]
        rfl
    | cons x xs =>
      rw [hr] at ih2
      rw [trimRight_cons_of_ne c x cs xs hr, hasTriple_cons]
      by_cases hc : c = '\n'
      · subst hc
        have hb := hasTriple_nl_not_two cs h
        have hx : leadNL (x :: xs) ≤ leadNL cs := by
          have := leadNL_trimRight_le cs
          rwa [hr] at this
        have hno : ¬ (('\n' : Char) = '\n' ∧ 2 ≤ leadNL (x :: xs)) := by
          rintro ⟨-, hh⟩
          omega
        rw [if_neg hno]
        exact ih2
      · have hno : ¬ (c = '\n' ∧ 2 ≤ leadNL (x :: xs)) := by
          rintro ⟨hh, -⟩
          exact hc hh
        rw [if_neg hno]
        exact ih2

/-- Whitespace normalization (collapse 3+ newlines to 2, then trim) is
idempotent. -/
theorem step3_idem (l : List Char) : step3 (step3 l) = step3 l := by
  unfold step3 collapseNL
  have hinv := collapseGo_inv l 0
  have hT : hasTriple (collapseGo 0 l) = false := hinv.2
  have hTtrim : hasTriple (trim (collapseGo 0 l)) = false := by
    unfold trim
    exact hasTriple_trimRight _ (hasTriple_trimLeft _ hT)
  have hlead : leadNL (trim (collapseGo 0 l)) = 0 := by
    rcases trim_head_not_ws (collapseGo 0 l) with h | ⟨c, r, h1, h2⟩
    · rw [h]; rfl
    · rw [h1]; exact leadNL_eq_zero c r h2
  have hfix : collapseGo 0 (trim (collapseGo 0 l)) = trim (collapseGo 0 l) :=
    collapseGo_id (trim (collapseGo 0 l)) 0 hTtrim (by rw [hlead]; simp)
  rw [hfix]
  exact trim_idem (collapseGo 0 l)

/-- Counterexample for C3: the pipeline is not idempotent.  Stripping the
fixed phrase "Here is the enhanced prompt:" (step 4) exposes the keyword
lead-in "enhance this:", which step 5 is skipped for on the first run (a
fixed phrase matched) and which only a second run strips.  Concretely the
first run yields " enhance this: foo", the second " foo". -/
theorem sanitize_not_idempotent_counterexample :
    sanitize (sanitize "Here is the enhanced prompt: enhance this: foo")
      ≠ sanitize "Here is the enhanced prompt: enhance this: foo" := by
  decide

/-- Claim C3 (amended): the full fixed-order rule pipeline is not
idempotent for every input (stripping a known phrase can expose a keyword
lead-in that only a second run strips).  What does hold: the
whitespace-normalization step (collapse 3+ newlines to 2, trim) is
idempotent, and re-running the pipeline on any text it leaves unchanged
alters nothing. -/
theorem sanitize_idempotent_amended :
    (∀ l : List Char, step3 (step3 l) = step3 l)
    ∧ ∀ s : String, sanitize s = s → sanitize (sanitize s) = sanitize s := by
  refine ⟨step3_idem, ?_⟩
  intro s h
  rw [h, h]

/-- Witness for C3's amended theorem at the already-clean input "hello". -/
theorem sanitize_idempotent_amended_witness :
    sanitize (sanitize "hello") = sanitize "hello" :=
  sanitize_idempotent_amended.2 "hello" (by decide)

end TenXPrompt
